import Mathlib

/-
Verification development for the bonsai ray tracer core.

The C++ sources are shallowly embedded in Lean 4.  Doubles are modelled as
real numbers for the geometric and radiometric claims; for the claims that
hinge on division by zero and NaN propagation, a second, explicitly named
model (`FP`) over exact rationals extended with the IEEE special values
+inf, -inf and NaN is used.  `FP` has a single zero (+0) and performs exact
rational arithmetic on finite values; no branch decision in the embedded
code paths depends on rounding, so this is faithful for the properties
settled with it.
-/

/-- Exact-rational model of an IEEE double: a finite value, one of the two
infinities, or NaN.  Rounding is not modelled and the two signed zeros are
collapsed to +0. -/
inductive FP where
  | fin (q : ℚ)
  | pinf
  | ninf
  | nan
deriving DecidableEq

/-- Negation on `FP`, per IEEE. -/
def FP.neg : FP → FP
  | .fin q => .fin (-q)
  | .pinf => .ninf
  | .ninf => .pinf
  | .nan => .nan

/-- Addition on `FP`, per IEEE (finite sums are exact in this model). -/
def FP.add : FP → FP → FP
  | .nan, _ => .nan
  | _, .nan => .nan
  | .pinf, .ninf => .nan
  | .ninf, .pinf => .nan
  | .pinf, _ => .pinf
  | _, .pinf => .pinf
  | .ninf, _ => .ninf
  | _, .ninf => .ninf
  | .fin a, .fin b => .fin (a + b)

/-- Subtraction on `FP`. -/
def FP.sub (a b : FP) : FP := FP.add a (FP.neg b)

/-- Multiplication on `FP`, per IEEE: `inf * 0 = NaN`, signs propagate. -/
def FP.mul : FP → FP → FP
  | .nan, _ => .nan
  | _, .nan => .nan
  | .pinf, .pinf => .pinf
  | .pinf, .ninf => .ninf
  | .ninf, .pinf => .ninf
  | .ninf, .ninf => .pinf
  | .pinf, .fin b => if b = 0 then .nan else if 0 < b then .pinf else .ninf
  | .fin a, .pinf => if a = 0 then .nan else if 0 < a then .pinf else .ninf
  | .ninf, .fin b => if b = 0 then .nan else if 0 < b then .ninf else .pinf
  | .fin a, .ninf => if a = 0 then .nan else if 0 < a then .ninf else .pinf
  | .fin a, .fin b => .fin (a * b)

/-- Division on `FP`, per IEEE with the single (+) zero: `x/0` is a signed
infinity for `x ≠ 0` and NaN for `0/0`. -/
def FP.div : FP → FP → FP
  | .nan, _ => .nan
  | _, .nan => .nan
  | .pinf, .pinf => .nan
  | .pinf, .ninf => .nan
  | .ninf, .pinf => .nan
  | .ninf, .ninf => .nan
  | .pinf, .fin b => if 0 ≤ b then .pinf else .ninf
  | .ninf, .fin b => if 0 ≤ b then .ninf else .pinf
  | .fin _, .pinf => .fin 0
  | .fin _, .ninf => .fin 0
  | .fin a, .fin b =>
      if b = 0 then (if a = 0 then .nan else if 0 < a then .pinf else .ninf)
      else .fin (a / b)

/-- Strict less-than on `FP`, per IEEE: every comparison against NaN is
false. -/
def FP.lt : FP → FP → Bool
  | .nan, _ => false
  | _, .nan => false
  | .ninf, .ninf => false
  | .ninf, _ => true
  | _, .ninf => false
  | .pinf, _ => false
  | .fin _, .pinf => true
  | .fin a, .fin b => decide (a < b)

/-- Strict greater-than on `FP`, per IEEE (`a > b` iff `b < a`; false on
NaN). -/
def FP.gt (a b : FP) : Bool := FP.lt b a

/-- Three-component vector over `FP` (model of `vec3` from the absent
`vec3.h` for the IEEE-semantics analysis). -/
structure vec3F where
  x : FP
  y : FP
  z : FP
deriving DecidableEq

/-- Componentwise negation of a `vec3F`. -/
def vec3F.neg (v : vec3F) : vec3F := ⟨FP.neg v.x, FP.neg v.y, FP.neg v.z⟩

/-- Dot product over `FP`, summed left to right as in `vec3.h`'s
`dot(u, v) = u.x*v.x + u.y*v.y + u.z*v.z`. -/
def dotF (u v : vec3F) : FP :=
  FP.add (FP.add (FP.mul u.x v.x) (FP.mul u.y v.y)) (FP.mul u.z v.z)

/-- Ray over `FP` (`ray.h`): origin, direction, time. -/
structure rayF where
  orig : vec3F
  dir : vec3F
  time : FP
deriving DecidableEq

/-- Embedding of `ray::at` (`ray.h`): `origin + t * direction`,
componentwise over `FP`. -/
def rayF.at (r : rayF) (t : FP) : vec3F :=
  ⟨FP.add r.orig.x (FP.mul t r.dir.x),
   FP.add r.orig.y (FP.mul t r.dir.y),
   FP.add r.orig.z (FP.mul t r.dir.z)⟩

/-- Hit record over `FP` (`hittable.h`); the material reference is omitted
in this numeric model. -/
structure hit_recordF where
  p : vec3F
  normal : vec3F
  t : FP
  u : FP
  v : FP
  front_face : Bool
deriving DecidableEq

/-- Embedding of `hit_record::set_face_normal` (`hittable.h`) over `FP`:
`front_face = dot(r.direction(), outward_normal) < 0` and the stored normal
is the outward normal or its negation accordingly. -/
def set_face_normalF (r : rayF) (outward_normal : vec3F) : Bool × vec3F :=
  if FP.lt (dotF r.dir outward_normal) (FP.fin 0)
  then (true, outward_normal)
  else (false, vec3F.neg outward_normal)

/-- Parameters of `xyrect` (`aarect.h`); the extent and plane offset are
ordinary finite doubles, modelled as rationals. -/
structure xyrectF where
  x0 : ℚ
  x1 : ℚ
  y0 : ℚ
  y1 : ℚ
  k : ℚ

/-- Embedding of `xyrect::hit` (`aarect.h`) with IEEE double semantics:
`t = (k - origin.z) / direction.z` is unguarded, then the range and extent
tests and the record construction follow the source line by line. -/
def xyrectF.hit (rect : xyrectF) (r : rayF) (t_min t_max : FP) : Option hit_recordF :=
  let t := FP.div (FP.sub (FP.fin rect.k) r.orig.z) r.dir.z
  if FP.lt t t_min || FP.gt t t_max then none
  else
    let x := FP.add r.orig.x (FP.mul t r.dir.x)
    let y := FP.add r.orig.y (FP.mul t r.dir.y)
    if FP.lt x (FP.fin rect.x0) || FP.gt x (FP.fin rect.x1) ||
       FP.lt y (FP.fin rect.y0) || FP.gt y (FP.fin rect.y1) then none
    else
      let sfn := set_face_normalF r ⟨FP.fin 0, FP.fin 0, FP.fin 1⟩
      some { p := rayF.at r t
             normal := sfn.2
             t := t
             u := FP.div (FP.sub x (FP.fin rect.x0)) (FP.sub (FP.fin rect.x1) (FP.fin rect.x0))
             v := FP.div (FP.sub y (FP.fin rect.y0)) (FP.sub (FP.fin rect.y1) (FP.fin rect.y0))
             front_face := sfn.1 }

/-- Parameters of `xzrect` (`aarect.h`). -/
structure xzrectF where
  x0 : ℚ
  x1 : ℚ
  z0 : ℚ
  z1 : ℚ
  k : ℚ

/-- Embedding of `xzrect::hit` (`aarect.h`) with IEEE double semantics:
`t = (k - origin.y) / direction.y`, outward normal `(0, 1, 0)`. -/
def xzrectF.hit (rect : xzrectF) (r : rayF) (t_min t_max : FP) : Option hit_recordF :=
  let t := FP.div (FP.sub (FP.fin rect.k) r.orig.y) r.dir.y
  if FP.lt t t_min || FP.gt t t_max then none
  else
    let x := FP.add r.orig.x (FP.mul t r.dir.x)
    let z := FP.add r.orig.z (FP.mul t r.dir.z)
    if FP.lt x (FP.fin rect.x0) || FP.gt x (FP.fin rect.x1) ||
       FP.lt z (FP.fin rect.z0) || FP.gt z (FP.fin rect.z1) then none
    else
      let sfn := set_face_normalF r ⟨FP.fin 0, FP.fin 1, FP.fin 0⟩
      some { p := rayF.at r t
             normal := sfn.2
             t := t
             u := FP.div (FP.sub x (FP.fin rect.x0)) (FP.sub (FP.fin rect.x1) (FP.fin rect.x0))
             v := FP.div (FP.sub z (FP.fin rect.z0)) (FP.sub (FP.fin rect.z1) (FP.fin rect.z0))
             front_face := sfn.1 }

/-- Parameters of `yzrect` (`aarect.h`). -/
structure yzrectF where
  y0 : ℚ
  y1 : ℚ
  z0 : ℚ
  z1 : ℚ
  k : ℚ

/-- Embedding of `yzrect::hit` (`aarect.h`) with IEEE double semantics:
`t = (k - origin.x) / direction.x`; note the source passes `vec3(0, 1, 0)`
as the outward normal, exactly as written on line 101 of `aarect.h`. -/
def yzrectF.hit (rect : yzrectF) (r : rayF) (t_min t_max : FP) : Option hit_recordF :=
  let t := FP.div (FP.sub (FP.fin rect.k) r.orig.x) r.dir.x
  if FP.lt t t_min || FP.gt t t_max then none
  else
    let y := FP.add r.orig.y (FP.mul t r.dir.y)
    let z := FP.add r.orig.z (FP.mul t r.dir.z)
    if FP.lt y (FP.fin rect.y0) || FP.gt y (FP.fin rect.y1) ||
       FP.lt z (FP.fin rect.z0) || FP.gt z (FP.fin rect.z1) then none
    else
      let sfn := set_face_normalF r ⟨FP.fin 0, FP.fin 1, FP.fin 0⟩
      some { p := rayF.at r t
             normal := sfn.2
             t := t
             u := FP.div (FP.sub y (FP.fin rect.y0)) (FP.sub (FP.fin rect.y1) (FP.fin rect.y0))
             v := FP.div (FP.sub z (FP.fin rect.z0)) (FP.sub (FP.fin rect.z1) (FP.fin rect.z0))
             front_face := sfn.1 }

/-
Real-number model.  Doubles are modelled as real numbers; the comparisons
the source performs become classical case splits, so this part of the
development is noncomputable.
-/

noncomputable section

open Classical

/-- Three-component vector of doubles (`vec3` from the absent `vec3.h`),
modelled over the reals. -/
structure vec3 where
  x : ℝ
  y : ℝ
  z : ℝ

/-- Componentwise addition of vectors (`vec3::operator+`). -/
instance : Add vec3 := ⟨fun u v => ⟨u.x + v.x, u.y + v.y, u.z + v.z⟩⟩

/-- Componentwise subtraction of vectors (`vec3::operator-`). -/
instance : Sub vec3 := ⟨fun u v => ⟨u.x - v.x, u.y - v.y, u.z - v.z⟩⟩

/-- Componentwise negation of a vector (unary `vec3::operator-`). -/
instance : Neg vec3 := ⟨fun v => ⟨-v.x, -v.y, -v.z⟩⟩

/-- Scalar multiplication (`double * vec3`). -/
instance : SMul ℝ vec3 := ⟨fun a v => ⟨a * v.x, a * v.y, a * v.z⟩⟩

/-- Componentwise product of vectors (`vec3 * vec3`, used for color
attenuation). -/
instance : Mul vec3 := ⟨fun u v => ⟨u.x * v.x, u.y * v.y, u.z * v.z⟩⟩

/-- Modelled from the spec: `vec3.h` is not under `src/`; `dot` is the
standard componentwise dot product used throughout the sources. -/
def dot (u v : vec3) : ℝ := u.x * v.x + u.y * v.y + u.z * v.z

/-- Modelled from the spec: `vec3::length` is the Euclidean norm. -/
def vec3.length (v : vec3) : ℝ := Real.sqrt (dot v v)

/-- Modelled from the spec: `unit_vector(v) = v / v.length()`. -/
def unit_vector (v : vec3) : vec3 := (1 / vec3.length v) • v

/-- Modelled from the spec: `reflect` from `vec3.h` — the reflection of `v`
about the normal `n`, `v - 2*dot(v,n)*n`. -/
def reflect (v n : vec3) : vec3 := v - (2 * dot v n) • n

/-- Modelled from the spec: `refract` from `vec3.h` — the Snell refraction
of the unit vector `uv` at a surface with normal `n` and relative index
`etai_over_etat`. -/
def refract (uv n : vec3) (etai_over_etat : ℝ) : vec3 :=
  let cos_theta := min (dot (-uv) n) 1
  let r_out_perp := etai_over_etat • (uv + cos_theta • n)
  let r_out_parallel := (-Real.sqrt |1 - dot r_out_perp r_out_perp|) • n
  r_out_perp + r_out_parallel

/-- Ray (`ray.h`): origin, direction and time; immutable value. -/
structure ray where
  orig : vec3
  dir : vec3
  time : ℝ

/-- Embedding of `ray::at` (`ray.h`): `origin + t * direction`. -/
def ray.at (r : ray) (t : ℝ) : vec3 := r.orig + t • r.dir

/-- Texture capability (`texture.h`): color as a function of surface
coordinates and position. -/
def texture : Type := ℝ → ℝ → vec3 → vec3

/-- Embedding of `solid_color::value` (`texture.h`): a constant color,
ignoring the surface coordinates. -/
def solid_color (c : vec3) : texture := fun _ _ _ => c

/-- Modelled from the spec: `onb.h` is not under `src/`.  The spec says the
cosine PDF "builds a local orthonormal frame with the given normal as its
principal axis"; only the principal axis `w()` of that frame is consulted by
`cosine_pdf::value`, and it is the normalized constructor argument. -/
def onb_w (w : vec3) : vec3 := unit_vector w

/-- Embedding of `cosine_pdf::value` (`pdf.h`): the cosine of the angle
between the normalized query direction and the frame's `w` axis, clamped to
zero from below (`(cosine <= 0) ? 0 : cosine / pi`). -/
def cosine_pdf.value (w : vec3) (direction : vec3) : ℝ :=
  let cosine := dot (unit_vector direction) (onb_w w)
  if cosine ≤ 0 then 0 else cosine / Real.pi

/-- Embedding of `mixture_pdf::value` (`pdf.h`): the two stored component
densities are arbitrary directional density functions. -/
def mixture_pdf.value (p0 p1 : vec3 → ℝ) (direction : vec3) : ℝ :=
  0.5 * p0 direction + 0.5 * p1 direction

/-- Embedding of `mixture_pdf::generate` (`pdf.h`): an unbiased coin
(`random_double() < 0.5`, the draw passed explicitly) picks one of the two
component samplers' outputs. -/
def mixture_pdf.generate (u : ℝ) (g0 g1 : vec3) : vec3 :=
  if u < 0.5 then g0 else g1

/-- Embedding of `hittable_list::pdf_value` (`hittable_list.h`): members
are abstracted to their `pdf_value` capability; the source accumulates
`weight * object->pdf_value(origin, direction)` with
`weight = 1.0 / objects.size()`. -/
def hittable_list.pdf_value (objects : List (vec3 → vec3 → ℝ))
    (origin direction : vec3) : ℝ :=
  let weight := 1 / (objects.length : ℝ)
  List.foldl (fun sum o => sum + weight * o origin direction) 0 objects

/-- Material variants (`material.h`): each constructor carries exactly the
immutable state of the corresponding C++ class.  The `metal` fuzz is stored
after the constructor clamp `f < 1 ? f : 1`. -/
inductive material where
  | lambertian (map : texture)
  | metal (color : vec3) (fuzz : ℝ)
  | dielectric (ior : ℝ)
  | diffuse_light (map : texture)
  | isotropic (map : texture)

/-- Embedding of the `metal` constructor's fuzz clamp (`material.h`):
`fuzz(f < 1 ? f : 1)`. -/
def metal_fuzz (f : ℝ) : ℝ := if f < 1 then f else 1

/-- Hit record (`hittable.h`): position, normal, material reference, ray
parameter, surface coordinates, orientation flag. -/
structure hit_record where
  p : vec3
  normal : vec3
  mat : material
  t : ℝ
  u : ℝ
  v : ℝ
  front_face : Bool

/-- Embedding of `hit_record::set_face_normal` (`hittable.h`): returns the
`front_face` flag and the stored normal. -/
def set_face_normal (r : ray) (outward_normal : vec3) : Bool × vec3 :=
  if dot r.dir outward_normal < 0
  then (true, outward_normal)
  else (false, -outward_normal)

/-- Distribution objects a scatter record can hold (`pdf.h`): the only PDF
ever stored by a material is `cosine_pdf(hit.normal)`
(`lambertian::scatter`); the null pointer is `Option.none`. -/
inductive pdf_model where
  | cosine (w : vec3)

/-- Scatter record (`material.h`): specular continuation ray, specular
flag, attenuation, and the (possibly null) outgoing-direction
distribution. -/
structure scatter_record where
  specular : ray
  is_specular : Bool
  attenuation : vec3
  distribution : Option pdf_model

/-- Random draws a single `material::scatter` call can consume: the
`random_in_unit_sphere()` sample and the `random_double()` uniform draw,
passed explicitly. -/
structure randoms where
  in_unit_sphere : vec3
  uniform : ℝ

/-- Embedding of `material::reflectance` (`material.h`): Schlick's
approximation. -/
def reflectance (cosine ref_idx : ℝ) : ℝ :=
  let r0 := (1 - ref_idx) / (1 + ref_idx)
  let r0sq := r0 * r0
  r0sq + (1 - r0sq) * (1 - cosine) ^ 5

/-- Embedding of the virtual `material::scatter` dispatch (`material.h`).
`none` is the base-class `return false` (terminal); each arm mirrors the
corresponding override line by line.  C++ fields the override leaves unset
keep their default-constructed values (the zero ray).  `diffuse_light` has
no override, so it inherits the terminal base behavior. -/
def material.scatter (m : material) (r : ray) (hit : hit_record)
    (rv : randoms) : Option scatter_record :=
  match m with
  | .lambertian map =>
      some { specular := ⟨⟨0, 0, 0⟩, ⟨0, 0, 0⟩, 0⟩
             is_specular := false
             attenuation := map hit.u hit.v hit.p
             distribution := some (pdf_model.cosine hit.normal) }
  | .metal color fuzz =>
      let reflected := reflect (unit_vector r.dir) hit.normal
      some { specular := ⟨hit.p, reflected + fuzz • rv.in_unit_sphere, 0⟩
             is_specular := true
             attenuation := color
             distribution := none }
  | .dielectric ior =>
      let refraction_ratio := if hit.front_face then 1 / ior else ior
      let unit_direction := unit_vector r.dir
      let cos_theta := min (dot (-unit_direction) hit.normal) 1
      let sin_theta := Real.sqrt (1 - cos_theta * cos_theta)
      let cannot_refract := refraction_ratio * sin_theta > 1
      let direction :=
        if cannot_refract ∨ reflectance cos_theta refraction_ratio > rv.uniform
        then reflect unit_direction hit.normal
        else refract unit_direction hit.normal refraction_ratio
      some { specular := ⟨hit.p, direction, r.time⟩
             is_specular := true
             attenuation := ⟨1, 1, 1⟩
             distribution := none }
  | .diffuse_light _ => none
  | .isotropic map =>
      some { specular := ⟨hit.p, rv.in_unit_sphere, r.time⟩
             is_specular := false
             attenuation := map hit.u hit.v hit.p
             distribution := none }

/-- Embedding of the virtual `material::emitted` dispatch (`material.h`):
black by default; `diffuse_light` returns its texture color gated on the
hit's front face. -/
def material.emitted (m : material) (r : ray) (hit : hit_record)
    (u v : ℝ) (p : vec3) : vec3 :=
  match m with
  | .diffuse_light map => if hit.front_face then map u v p else ⟨0, 0, 0⟩
  | _ => ⟨0, 0, 0⟩

/-- Embedding of the virtual `material::scattering_pdf` dispatch
(`material.h`): zero by default; the lambertian override returns
`cosine < 0 ? 0 : cosine / pi` with
`cosine = dot(hit.normal, unit_vector(scattered.direction()))`. -/
def material.scattering_pdf (m : material) (r : ray) (hit : hit_record)
    (scattered : ray) : ℝ :=
  match m with
  | .lambertian _ =>
      let cosine := dot hit.normal (unit_vector scattered.dir)
      if cosine < 0 then 0 else cosine / Real.pi
  | _ => 0

/-- Parameters of `xyrect` (`aarect.h`) over the reals, with its material
reference. -/
structure xyrect where
  x0 : ℝ
  x1 : ℝ
  y0 : ℝ
  y1 : ℝ
  k : ℝ
  mat : material

/-- Embedding of `xyrect::hit` (`aarect.h`) over the reals: solve
`t = (k - origin.z) / direction.z`, reject outside `[t_min, t_max]` or the
rectangle extent, then build the record with outward normal `(0,0,1)`. -/
def xyrect.hit (rect : xyrect) (r : ray) (t_min t_max : ℝ) : Option hit_record :=
  let t := (rect.k - r.orig.z) / r.dir.z
  if t < t_min ∨ t > t_max then none
  else
    let x := r.orig.x + t * r.dir.x
    let y := r.orig.y + t * r.dir.y
    if x < rect.x0 ∨ x > rect.x1 ∨ y < rect.y0 ∨ y > rect.y1 then none
    else
      let sfn := set_face_normal r ⟨0, 0, 1⟩
      some { p := r.at t
             normal := sfn.2
             mat := rect.mat
             t := t
             u := (x - rect.x0) / (rect.x1 - rect.x0)
             v := (y - rect.y0) / (rect.y1 - rect.y0)
             front_face := sfn.1 }

/-- Parameters of `xzrect` (`aarect.h`) over the reals. -/
structure xzrect where
  x0 : ℝ
  x1 : ℝ
  z0 : ℝ
  z1 : ℝ
  k : ℝ
  mat : material

/-- Embedding of `xzrect::hit` (`aarect.h`) over the reals, outward normal
`(0,1,0)`. -/
def xzrect.hit (rect : xzrect) (r : ray) (t_min t_max : ℝ) : Option hit_record :=
  let t := (rect.k - r.orig.y) / r.dir.y
  if t < t_min ∨ t > t_max then none
  else
    let x := r.orig.x + t * r.dir.x
    let z := r.orig.z + t * r.dir.z
    if x < rect.x0 ∨ x > rect.x1 ∨ z < rect.z0 ∨ z > rect.z1 then none
    else
      let sfn := set_face_normal r ⟨0, 1, 0⟩
      some { p := r.at t
             normal := sfn.2
             mat := rect.mat
             t := t
             u := (x - rect.x0) / (rect.x1 - rect.x0)
             v := (z - rect.z0) / (rect.z1 - rect.z0)
             front_face := sfn.1 }

/-- Parameters of `yzrect` (`aarect.h`) over the reals. -/
structure yzrect where
  y0 : ℝ
  y1 : ℝ
  z0 : ℝ
  z1 : ℝ
  k : ℝ
  mat : material

/-- Embedding of `yzrect::hit` (`aarect.h`) over the reals.  The source
passes `vec3(0, 1, 0)` as the outward normal (line 101 of `aarect.h`),
which this embedding reproduces verbatim. -/
def yzrect.hit (rect : yzrect) (r : ray) (t_min t_max : ℝ) : Option hit_record :=
  let t := (rect.k - r.orig.x) / r.dir.x
  if t < t_min ∨ t > t_max then none
  else
    let y := r.orig.y + t * r.dir.y
    let z := r.orig.z + t * r.dir.z
    if y < rect.y0 ∨ y > rect.y1 ∨ z < rect.z0 ∨ z > rect.z1 then none
    else
      let sfn := set_face_normal r ⟨0, 1, 0⟩
      some { p := r.at t
             normal := sfn.2
             mat := rect.mat
             t := t
             u := (y - rect.y0) / (rect.y1 - rect.y0)
             v := (z - rect.z0) / (rect.z1 - rect.z0)
             front_face := sfn.1 }

/-- Embedding of `translate::hit` (`hittable.h`): the inner shape is
abstracted to its `hit` capability.  The incoming ray is shifted by the
negative offset, the inner record's position shifted back, and
`set_face_normal` is re-run on the inner record's already-oriented
normal. -/
def translate.hit (inner : ray → ℝ → ℝ → Option hit_record) (position : vec3)
    (r : ray) (t_min t_max : ℝ) : Option hit_record :=
  let translated_r : ray := ⟨r.orig - position, r.dir, r.time⟩
  match inner translated_r t_min t_max with
  | none => none
  | some rec =>
      let sfn := set_face_normal translated_r rec.normal
      some { rec with p := rec.p + position, normal := sfn.2, front_face := sfn.1 }

/-- Embedding of `rotate_y::hit` (`hittable.h`): `sin_theta`/`cos_theta`
are the values the constructor precomputed from the angle (`utils.h` is not
under `src/`; they are taken as the stored fields).  The ray is rotated
into object space, the inner record's position and normal rotated back to
world space, and `set_face_normal` is re-run with the object-space rotated
ray against the world-space normal, exactly as the source does. -/
def rotate_y.hit (inner : ray → ℝ → ℝ → Option hit_record)
    (sin_theta cos_theta : ℝ) (r : ray) (t_min t_max : ℝ) : Option hit_record :=
  let origin : vec3 := ⟨cos_theta * r.orig.x - sin_theta * r.orig.z,
                        r.orig.y,
                        sin_theta * r.orig.x + cos_theta * r.orig.z⟩
  let direction : vec3 := ⟨cos_theta * r.dir.x - sin_theta * r.dir.z,
                           r.dir.y,
                           sin_theta * r.dir.x + cos_theta * r.dir.z⟩
  let rotated_r : ray := ⟨origin, direction, r.time⟩
  match inner rotated_r t_min t_max with
  | none => none
  | some rec =>
      let p : vec3 := ⟨cos_theta * rec.p.x + sin_theta * rec.p.z,
                       rec.p.y,
                       -sin_theta * rec.p.x + cos_theta * rec.p.z⟩
      let normal : vec3 := ⟨cos_theta * rec.normal.x + sin_theta * rec.normal.z,
                            rec.normal.y,
                            -sin_theta * rec.normal.x + cos_theta * rec.normal.z⟩
      let sfn := set_face_normal rotated_r normal
      some { rec with p := p, normal := sfn.2, front_face := sfn.1 }

/-- Embedding of `ray_color` (`main.cpp`).  The scene (`world`) is
abstracted to the intersection it reports for a ray at the fixed bounds
`(0.001, infinity)` the source passes — the concrete scene type `bvh_node`
(`bvh.h`) is not under `src/`.  `rnd` supplies the random draws consumed at
each depth.  Note the source calls a four-argument `material::scatter`
overload that `material.h` does not declare (the file is a stale snapshot);
the call is routed to `material.h`'s scatter, reading the attenuation and
the continuation ray from the scatter record.  On a terminal scatter the
source returns `vec3(0, 0, 0)` — it never queries `material::emitted`. -/
def ray_color (world : ray → Option hit_record) (rnd : ℤ → randoms)
    (r : ray) (depth : ℤ) : vec3 :=
  if h : depth ≤ 0 then ⟨0, 0, 0⟩
  else
    match world r with
    | some rec =>
        match material.scatter rec.mat r rec (rnd depth) with
        | some scattering =>
            scattering.attenuation * ray_color world rnd scattering.specular (depth - 1)
        | none => ⟨0, 0, 0⟩
    | none =>
        let unit_direction := unit_vector r.dir
        let t := 0.5 * (unit_direction.y + 1)
        (1 - t) • (⟨1, 1, 1⟩ : vec3) + t • (⟨0.5, 0.7, 1⟩ : vec3)
termination_by depth.toNat
decreasing_by
  omega

/-
Helper lemmas shared by the claim theorems.
-/

/-- Componentwise characterization of vector addition. -/
@[simp] theorem vec3_add (u v : vec3) :
    u + v = (⟨u.x + v.x, u.y + v.y, u.z + v.z⟩ : vec3) := rfl

/-- Componentwise characterization of vector subtraction. -/
@[simp] theorem vec3_sub (u v : vec3) :
    u - v = (⟨u.x - v.x, u.y - v.y, u.z - v.z⟩ : vec3) := rfl

/-- Componentwise characterization of vector negation. -/
@[simp] theorem vec3_neg (v : vec3) :
    -v = (⟨-v.x, -v.y, -v.z⟩ : vec3) := rfl

/-- Componentwise characterization of scalar multiplication. -/
@[simp] theorem vec3_smul (a : ℝ) (v : vec3) :
    a • v = (⟨a * v.x, a * v.y, a * v.z⟩ : vec3) := rfl

/-- Componentwise characterization of the componentwise product. -/
@[simp] theorem vec3_mul (u v : vec3) :
    u * v = (⟨u.x * v.x, u.y * v.y, u.z * v.z⟩ : vec3) := rfl

/-- The dot product is symmetric. -/
theorem dot_comm (u v : vec3) : dot u v = dot v u := by
  simp only [dot]; ring

/-- Evaluation rule for square roots of recognizable squares. -/
theorem sqrt_eval {a b : ℝ} (hb : 0 ≤ b) (h : b ^ 2 = a) : Real.sqrt a = b := by
  rw [← h]
  exact Real.sqrt_sq hb

/-- A vector of unit length is its own normalization. -/
theorem unit_vector_of_unit {v : vec3} (h : vec3.length v = 1) :
    unit_vector v = v := by
  simp [unit_vector, h]

/-- Folding an accumulating sum equals the initial value plus the list
sum. -/
theorem foldl_add_map {α : Type} (l : List α) (f : α → ℝ) (a : ℝ) :
    List.foldl (fun s o => s + f o) a l = a + (l.map f).sum := by
  induction l generalizing a with
  | nil => simp
  | cons hd tl ih => simp [ih]; ring

/-
Claim theorems.
-/

/-- C1: for every pair of component densities and every direction, the
mixture PDF's density is exactly `0.5 * d1 + 0.5 * d2` at that direction;
in particular this holds at the direction the mixture sampler generates,
for every value of the coin draw, i.e. regardless of which component
actually produced the direction. -/
theorem mixture_density_is_half_sum :
    ∀ (p0 p1 : vec3 → ℝ) (direction : vec3),
      mixture_pdf.value p0 p1 direction =
        0.5 * p0 direction + 0.5 * p1 direction ∧
      ∀ (u : ℝ) (g0 g1 : vec3),
        mixture_pdf.value p0 p1 (mixture_pdf.generate u g0 g1) =
          0.5 * p0 (mixture_pdf.generate u g0 g1) +
            0.5 * p1 (mixture_pdf.generate u g0 g1) := by
  intro p0 p1 direction
  exact ⟨rfl, fun u g0 g1 => rfl⟩

/-- C6 (counterexample): a concrete metal hit whose fuzz-perturbed
reflected direction points into the surface (negative dot with the normal),
yet `metal::scatter` still returns a specular outcome instead of rejecting:
incoming unit direction `(4/5, 0, -3/5)` against normal `(0,0,1)` reflects
to `(4/5, 0, 3/5)`; the fuzz-1 perturbation `(0, 0, -4/5)` (length `4/5`,
inside the unit sphere) drags it to `(4/5, 0, -1/5)`, below the surface. -/
theorem metal_scatter_accepts_inward_direction :
    material.scatter (material.metal ⟨1, 1, 1⟩ 1)
        ⟨⟨0, 0, 1⟩, ⟨4/5, 0, -(3/5)⟩, 0⟩
        ⟨⟨0, 0, 0⟩, ⟨0, 0, 1⟩, material.metal ⟨1, 1, 1⟩ 1, 1, 0, 0, true⟩
        ⟨⟨0, 0, -(4/5)⟩, 0⟩ =
      some { specular := ⟨⟨0, 0, 0⟩, ⟨4/5, 0, -(1/5)⟩, 0⟩
             is_specular := true
             attenuation := ⟨1, 1, 1⟩
             distribution := none } ∧
    dot ⟨4/5, 0, -(1/5)⟩ ⟨0, 0, 1⟩ < 0 ∧
    vec3.length ⟨0, 0, -(4/5)⟩ < 1 := by
  have hlen : vec3.length ⟨4/5, 0, -(3/5)⟩ = 1 := by
    simp only [vec3.length, dot]
    exact sqrt_eval (by norm_num) (by norm_num)
  have huv : unit_vector ⟨4/5, 0, -(3/5)⟩ = ⟨4/5, 0, -(3/5)⟩ :=
    unit_vector_of_unit hlen
  refine ⟨?_, by norm_num [dot], ?_⟩
  · simp only [material.scatter, huv, reflect, dot, vec3_smul, vec3_sub,
      vec3_add, Option.some.injEq]
    norm_num
  · simp only [vec3.length, dot]
    rw [sqrt_eval (b := 4/5) (by norm_num) (by norm_num)]
    norm_num

/-- C6 (amended): `metal::scatter` never rejects a scatter — for every hit
and every fuzz-perturbation draw it returns a specular outcome whose
direction is the fuzz-perturbed reflection and whose attenuation is the
metal's color, even when the perturbed direction points into the surface;
no absorption (`return false`) path exists in the override. -/
theorem metal_scatter_never_rejects :
    ∀ (color : vec3) (fuzz : ℝ) (r : ray) (hit : hit_record) (rv : randoms),
      material.scatter (material.metal color fuzz) r hit rv =
        some { specular := ⟨hit.p,
                 reflect (unit_vector r.dir) hit.normal + fuzz • rv.in_unit_sphere, 0⟩
               is_specular := true
               attenuation := color
               distribution := none } := by
  intro color fuzz r hit rv
  rfl

/-- C8 (counterexample): `isotropic::scatter` reports a successful
non-specular outcome whose distribution pointer is null — evaluated at a
concrete hit, the outcome has `is_specular = false` and
`distribution = none`, refuting the claim that every non-specular outcome
supplies a present outgoing-direction distribution. -/
theorem isotropic_scatter_null_distribution :
    material.scatter (material.isotropic (solid_color ⟨1, 1, 1⟩))
        ⟨⟨0, 0, 0⟩, ⟨0, 0, 1⟩, 0⟩
        ⟨⟨0, 0, 2⟩, ⟨0, 0, -1⟩, material.isotropic (solid_color ⟨1, 1, 1⟩),
         2, 0, 0, true⟩
        ⟨⟨1/2, 0, 0⟩, 0⟩ =
      some { specular := ⟨⟨0, 0, 2⟩, ⟨1/2, 0, 0⟩, 0⟩
             is_specular := false
             attenuation := ⟨1, 1, 1⟩
             distribution := none } := by
  rfl

/-- C8 (amended): every successful scatter outcome is tagged specular or
non-specular and carries an attenuation; the lambertian's non-specular
outcome supplies a cosine distribution about the hit normal, but the
isotropic's non-specular outcome carries a null distribution (its sampled
direction is stored in the specular-ray slot instead), so not every
non-specular outcome supplies an outgoing-direction distribution. -/
theorem scatter_outcome_shapes :
    ∀ (map : texture) (r : ray) (hit : hit_record) (rv : randoms),
      material.scatter (material.lambertian map) r hit rv =
        some { specular := ⟨⟨0, 0, 0⟩, ⟨0, 0, 0⟩, 0⟩
               is_specular := false
               attenuation := map hit.u hit.v hit.p
               distribution := some (pdf_model.cosine hit.normal) } ∧
      material.scatter (material.isotropic map) r hit rv =
        some { specular := ⟨hit.p, rv.in_unit_sphere, r.time⟩
               is_specular := false
               attenuation := map hit.u hit.v hit.p
               distribution := none } := by
  intro map r hit rv
  exact ⟨rfl, rfl⟩

/-- C7: the aggregate's `pdf_value` is the unweighted arithmetic mean of
its members' densities at the given origin and direction (the source folds
`weight * member_density` with `weight = 1/N`); in particular a two-member
list whose member densities are `0` and `d` yields exactly `d / 2`. -/
theorem hittable_list_pdf_value_mean :
    (∀ (objects : List (vec3 → vec3 → ℝ)) (origin direction : vec3),
        objects ≠ [] →
        hittable_list.pdf_value objects origin direction =
          (objects.map fun o => o origin direction).sum / (objects.length : ℝ)) ∧
    (∀ (f g : vec3 → vec3 → ℝ) (origin direction : vec3),
        f origin direction = 0 →
        hittable_list.pdf_value [f, g] origin direction =
          g origin direction / 2) := by
  constructor
  · intro objects origin direction _
    simp only [hittable_list.pdf_value]
    rw [foldl_add_map, zero_add, List.sum_map_mul_left, one_div, inv_mul_eq_div]
  · intro f g origin direction hf
    simp only [hittable_list.pdf_value, List.foldl, List.length, hf]
    push_cast
    ring

/-- C7 (witness): the mean theorem applied to the one-member list with
constant density `3` and to the two-member list with densities `0` and
`5`. -/
theorem hittable_list_pdf_value_mean_witness :
    hittable_list.pdf_value [fun _ _ => 3] ⟨0, 0, 0⟩ ⟨0, 0, 1⟩ =
      (([fun _ _ => 3] : List (vec3 → vec3 → ℝ)).map
        fun o => o ⟨0, 0, 0⟩ ⟨0, 0, 1⟩).sum /
        ((([fun _ _ => 3] : List (vec3 → vec3 → ℝ)).length : ℝ)) ∧
    hittable_list.pdf_value [fun _ _ => 0, fun _ _ => 5] ⟨0, 0, 0⟩ ⟨0, 0, 1⟩ =
      (5 : ℝ) / 2 :=
  ⟨hittable_list_pdf_value_mean.1 [fun _ _ => 3] ⟨0, 0, 0⟩ ⟨0, 0, 1⟩ (by simp),
   hittable_list_pdf_value_mean.2 (fun _ _ => 0) (fun _ _ => 5) ⟨0, 0, 0⟩ ⟨0, 0, 1⟩ rfl⟩

/-- C4: for a unit-length hit normal, the lambertian scattering density at
a scattered direction equals `max(0, cos θ)/π` with `cos θ` the cosine
between the normal and the normalized direction, and this equals the
density a cosine PDF built from the same normal reports for the same
direction. -/
theorem lambertian_scattering_pdf_matches_cosine :
    ∀ (map : texture) (r scattered : ray) (hit : hit_record),
      vec3.length hit.normal = 1 →
      material.scattering_pdf (material.lambertian map) r hit scattered =
        max 0 (dot hit.normal (unit_vector scattered.dir)) / Real.pi ∧
      material.scattering_pdf (material.lambertian map) r hit scattered =
        cosine_pdf.value hit.normal scattered.dir := by
  intro map r scattered hit h
  have hw : onb_w hit.normal = hit.normal := unit_vector_of_unit h
  constructor
  · simp only [material.scattering_pdf]
    rcases lt_or_le (dot hit.normal (unit_vector scattered.dir)) 0 with hc | hc
    · rw [if_pos hc, max_eq_left hc.le, zero_div]
    · rw [if_neg (not_lt.mpr hc), max_eq_right hc]
  · simp only [material.scattering_pdf, cosine_pdf.value, hw,
      dot_comm (unit_vector scattered.dir) hit.normal]
    rcases lt_trichotomy (dot hit.normal (unit_vector scattered.dir)) 0 with hc | hc | hc
    · rw [if_pos hc, if_pos hc.le]
    · rw [if_neg (not_lt.mpr hc.ge), if_pos hc.le, hc, zero_div]
    · rw [if_neg (not_lt.mpr hc.le), if_neg (not_le.mpr hc)]

/-- C4 (witness): the match applied at the unit normal `(0,0,1)` and the
scattered direction `(0,0,2)`. -/
theorem lambertian_scattering_pdf_matches_cosine_witness :
    vec3.length ⟨0, 0, 1⟩ = 1 ∧
    (material.scattering_pdf (material.lambertian (solid_color ⟨1, 1, 1⟩))
        ⟨⟨0, 0, 0⟩, ⟨0, 0, 1⟩, 0⟩
        ⟨⟨0, 0, 2⟩, ⟨0, 0, 1⟩, material.lambertian (solid_color ⟨1, 1, 1⟩),
         2, 0, 0, true⟩
        ⟨⟨0, 0, 2⟩, ⟨0, 0, 2⟩, 0⟩ =
      max 0 (dot (⟨0, 0, 1⟩ : vec3) (unit_vector ⟨0, 0, 2⟩)) / Real.pi ∧
     material.scattering_pdf (material.lambertian (solid_color ⟨1, 1, 1⟩))
        ⟨⟨0, 0, 0⟩, ⟨0, 0, 1⟩, 0⟩
        ⟨⟨0, 0, 2⟩, ⟨0, 0, 1⟩, material.lambertian (solid_color ⟨1, 1, 1⟩),
         2, 0, 0, true⟩
        ⟨⟨0, 0, 2⟩, ⟨0, 0, 2⟩, 0⟩ =
      cosine_pdf.value ⟨0, 0, 1⟩ ⟨0, 0, 2⟩) := by
  have h : vec3.length (⟨0, 0, 1⟩ : vec3) = 1 := by
    simp only [vec3.length, dot]
    exact sqrt_eval (by norm_num) (by norm_num)
  exact ⟨h, lambertian_scattering_pdf_matches_cosine (solid_color ⟨1, 1, 1⟩)
    ⟨⟨0, 0, 0⟩, ⟨0, 0, 1⟩, 0⟩ ⟨⟨0, 0, 2⟩, ⟨0, 0, 2⟩, 0⟩
    ⟨⟨0, 0, 2⟩, ⟨0, 0, 1⟩, material.lambertian (solid_color ⟨1, 1, 1⟩),
     2, 0, 0, true⟩ h⟩

/-- C5: whenever the total-internal-reflection test holds — the refraction
ratio (`1/ior` on a front face, `ior` otherwise) times
`sqrt(1 - cos_theta^2)` exceeds 1 — the dielectric's scatter returns, for
every value of the uniform Schlick draw, a specular outcome whose
continuation direction is the reflection of the unit incoming direction
about the normal, with white attenuation `(1,1,1)`. -/
theorem dielectric_tir_always_reflects :
    ∀ (ior : ℝ) (r : ray) (hit : hit_record) (rv : randoms),
      (if hit.front_face then 1 / ior else ior) *
        Real.sqrt (1 - min (dot (-unit_vector r.dir) hit.normal) 1 *
          min (dot (-unit_vector r.dir) hit.normal) 1) > 1 →
      material.scatter (material.dielectric ior) r hit rv =
        some { specular := ⟨hit.p, reflect (unit_vector r.dir) hit.normal, r.time⟩
               is_specular := true
               attenuation := ⟨1, 1, 1⟩
               distribution := none } := by
  intro ior r hit rv h
  simp only [material.scatter]
  rw [if_pos (Or.inl h)]

/-- C5 (witness): a dielectric of index `3/2` hit from the inside
(`front_face = false`) by the unit direction `(4/5, 0, -3/5)` against the
normal `(0, 0, 1)`: the incidence sine is `4/5 > 2/3`, the test value is
`3/2 * 4/5 = 6/5 > 1`, and the scatter reflects to `(4/5, 0, 3/5)`. -/
theorem dielectric_tir_always_reflects_witness :
    ((if (false : Bool) then 1 / (3/2 : ℝ) else (3/2 : ℝ)) *
      Real.sqrt (1 - min (dot (-unit_vector ⟨4/5, 0, -(3/5)⟩) ⟨0, 0, 1⟩) 1 *
        min (dot (-unit_vector ⟨4/5, 0, -(3/5)⟩) ⟨0, 0, 1⟩) 1) > 1) ∧
    material.scatter (material.dielectric (3/2))
        ⟨⟨0, 0, 1⟩, ⟨4/5, 0, -(3/5)⟩, 0⟩
        ⟨⟨0, 0, 0⟩, ⟨0, 0, 1⟩, material.dielectric (3/2), 1, 0, 0, false⟩
        ⟨⟨0, 0, 0⟩, 1/2⟩ =
      some { specular := ⟨⟨0, 0, 0⟩,
               reflect (unit_vector ⟨4/5, 0, -(3/5)⟩) ⟨0, 0, 1⟩, 0⟩
             is_specular := true
             attenuation := ⟨1, 1, 1⟩
             distribution := none } := by
  have hlen : vec3.length ⟨4/5, 0, -(3/5)⟩ = 1 := by
    simp only [vec3.length, dot]
    exact sqrt_eval (by norm_num) (by norm_num)
  have huv : unit_vector ⟨4/5, 0, -(3/5)⟩ = ⟨4/5, 0, -(3/5)⟩ :=
    unit_vector_of_unit hlen
  have hd : dot (-unit_vector ⟨4/5, 0, -(3/5)⟩) (⟨0, 0, 1⟩ : vec3) = 3/5 := by
    rw [huv]; norm_num [dot]
  have hmin : min (dot (-unit_vector ⟨4/5, 0, -(3/5)⟩) (⟨0, 0, 1⟩ : vec3)) 1 = 3/5 := by
    rw [hd]; norm_num
  have h : ((if (false : Bool) then 1 / (3/2 : ℝ) else (3/2 : ℝ)) *
      Real.sqrt (1 - min (dot (-unit_vector ⟨4/5, 0, -(3/5)⟩) ⟨0, 0, 1⟩) 1 *
        min (dot (-unit_vector ⟨4/5, 0, -(3/5)⟩) ⟨0, 0, 1⟩) 1) > 1) := by
    rw [hmin, if_neg (by simp),
      show (1 : ℝ) - 3/5 * (3/5) = 16/25 by norm_num,
      sqrt_eval (b := 4/5) (by norm_num) (by norm_num)]
    norm_num
  exact ⟨h, dielectric_tir_always_reflects (3/2)
    ⟨⟨0, 0, 1⟩, ⟨4/5, 0, -(3/5)⟩, 0⟩
    ⟨⟨0, 0, 0⟩, ⟨0, 0, 1⟩, material.dielectric (3/2), 1, 0, 0, false⟩
    ⟨⟨0, 0, 0⟩, 1/2⟩ h⟩

/-- C3 (failing-input evaluation): a ray that crosses the yz-rectangle
`y,z ∈ [0,1]` in the plane `x = 0` head-on along `(1,0,0)` does hit, but
the stored normal is `(0,-1,0)` — `yzrect::hit` passes `vec3(0,1,0)` to
`set_face_normal` — which lies inside the rectangle's plane instead of
being the claimed `(±1,0,0)` orthogonal to it. -/
theorem yzrect_hit_stores_in_plane_normal :
    (yzrect.mk 0 1 0 1 0 (material.diffuse_light (solid_color ⟨7, 7, 7⟩))).hit
        ⟨⟨-1, 1/2, 1/2⟩, ⟨1, 0, 0⟩, 0⟩ (1/1000) 100 =
      some { p := ⟨0, 1/2, 1/2⟩
             normal := ⟨0, -1, 0⟩
             mat := material.diffuse_light (solid_color ⟨7, 7, 7⟩)
             t := 1
             u := 1/2
             v := 1/2
             front_face := false } ∧
    dot ⟨0, -1, 0⟩ ⟨1, 0, 0⟩ = 0 ∧
    (⟨0, -1, 0⟩ : vec3) ≠ ⟨1, 0, 0⟩ ∧
    (⟨0, -1, 0⟩ : vec3) ≠ ⟨-1, 0, 0⟩ := by
  refine ⟨?_, by norm_num [dot], by simp [vec3.mk.injEq], by simp [vec3.mk.injEq]⟩
  norm_num [yzrect.hit, set_face_normal, dot, ray.at, vec3_smul, vec3_add,
    vec3_neg]

/-- C2 (failing-input evaluation): a ray whose closest intersection is a
front-face hit on a `diffuse_light` with radiance `(7,7,7)` — a material
whose scatter is terminal — makes `ray_color` (`main.cpp`) return black
`(0,0,0)`, even though the material's emission at that hit is `(7,7,7)`;
the estimator never queries `material::emitted`. -/
theorem ray_color_terminal_returns_black_not_emission :
    ray_color
        (fun _ => some ⟨⟨0, 0, 2⟩, ⟨0, 0, -1⟩,
          material.diffuse_light (solid_color ⟨7, 7, 7⟩), 2, 0, 0, true⟩)
        (fun _ => ⟨⟨0, 0, 0⟩, 0⟩)
        ⟨⟨0, 0, 0⟩, ⟨0, 0, 1⟩, 0⟩ 50 =
      ⟨0, 0, 0⟩ ∧
    material.emitted (material.diffuse_light (solid_color ⟨7, 7, 7⟩))
        ⟨⟨0, 0, 0⟩, ⟨0, 0, 1⟩, 0⟩
        ⟨⟨0, 0, 2⟩, ⟨0, 0, -1⟩, material.diffuse_light (solid_color ⟨7, 7, 7⟩),
         2, 0, 0, true⟩ 0 0 ⟨0, 0, 2⟩ =
      ⟨7, 7, 7⟩ := by
  constructor
  · rw [ray_color]
    norm_num [material.scatter]
  · rfl

/-- C9 (counterexample): a ray lying exactly in the xy-rectangle's plane
(`origin.z = k = 0`, `direction.z = 0`) is not resolved to "no hit": the
unguarded solve computes `t = 0/0 = NaN`, every rejection comparison
against NaN is false, and `hit` returns true with a record whose `t`, `u`,
`v` and position are NaN. -/
theorem xyrect_inplane_ray_returns_nan_hit :
    xyrectF.hit ⟨0, 2, 0, 2, 0⟩
        ⟨⟨FP.fin 1, FP.fin 1, FP.fin 0⟩,
         ⟨FP.fin 1, FP.fin 0, FP.fin 0⟩, FP.fin 0⟩
        (FP.fin 0) FP.pinf =
      some { p := ⟨FP.nan, FP.nan, FP.nan⟩
             normal := ⟨FP.fin 0, FP.fin 0, FP.fin (-1)⟩
             t := FP.nan
             u := FP.nan
             v := FP.nan
             front_face := false } := by
  norm_num [xyrectF.hit, set_face_normalF, rayF.at, dotF, vec3F.neg,
    FP.div, FP.sub, FP.add, FP.neg, FP.mul, FP.lt, FP.gt]

/-- Subtraction of finite values stays finite and exact. -/
theorem FP.sub_fin (a b : ℚ) : FP.sub (FP.fin a) (FP.fin b) = FP.fin (a - b) := by
  simp [FP.sub, FP.add, FP.neg, sub_eq_add_neg]

/-- Division of a nonzero finite value by the (positive) zero is the
infinity carrying the dividend's sign. -/
theorem FP.div_fin_zero (a : ℚ) (h : a ≠ 0) :
    FP.div (FP.fin a) (FP.fin 0) = if 0 < a then FP.pinf else FP.ninf := by
  simp [FP.div, h]

/-- C9 (amended): for each axis-aligned rectangle variant, a ray whose
direction component along the rectangle's fixed axis is zero and whose
(finite) origin does not lie in the rectangle's plane is resolved to "no
hit" whenever the `t` bounds are finite — the division yields a signed
infinity which the `t`-range test rejects.  (A ray lying exactly in the
plane is instead accepted with a NaN record.) -/
theorem aarect_parallel_offplane_ray_misses :
    (∀ (rect : xyrectF) (r : rayF) (oz a b : ℚ),
        r.dir.z = FP.fin 0 → r.orig.z = FP.fin oz → oz ≠ rect.k →
        xyrectF.hit rect r (FP.fin a) (FP.fin b) = none) ∧
    (∀ (rect : xzrectF) (r : rayF) (oy a b : ℚ),
        r.dir.y = FP.fin 0 → r.orig.y = FP.fin oy → oy ≠ rect.k →
        xzrectF.hit rect r (FP.fin a) (FP.fin b) = none) ∧
    (∀ (rect : yzrectF) (r : rayF) (ox a b : ℚ),
        r.dir.x = FP.fin 0 → r.orig.x = FP.fin ox → ox ≠ rect.k →
        yzrectF.hit rect r (FP.fin a) (FP.fin b) = none) := by
  refine ⟨?_, ?_, ?_⟩
  · intro rect r oz a b hdz hoz hne
    have hs : rect.k - oz ≠ 0 := sub_ne_zero.mpr (Ne.symm hne)
    simp only [xyrectF.hit, hdz, hoz, FP.sub_fin, FP.div_fin_zero _ hs]
    rcases lt_or_gt_of_ne hs with hlt | hgt
    · rw [if_neg (not_lt.mpr hlt.le)]
      simp [FP.lt]
    · rw [if_pos hgt]
      simp [FP.gt, FP.lt]
  · intro rect r oy a b hdy hoy hne
    have hs : rect.k - oy ≠ 0 := sub_ne_zero.mpr (Ne.symm hne)
    simp only [xzrectF.hit, hdy, hoy, FP.sub_fin, FP.div_fin_zero _ hs]
    rcases lt_or_gt_of_ne hs with hlt | hgt
    · rw [if_neg (not_lt.mpr hlt.le)]
      simp [FP.lt]
    · rw [if_pos hgt]
      simp [FP.gt, FP.lt]
  · intro rect r ox a b hdx hox hne
    have hs : rect.k - ox ≠ 0 := sub_ne_zero.mpr (Ne.symm hne)
    simp only [yzrectF.hit, hdx, hox, FP.sub_fin, FP.div_fin_zero _ hs]
    rcases lt_or_gt_of_ne hs with hlt | hgt
    · rw [if_neg (not_lt.mpr hlt.le)]
      simp [FP.lt]
    · rw [if_pos hgt]
      simp [FP.gt, FP.lt]

/-- C9 (witness): the amended theorem applied to each rectangle variant at
a plane offset `k = 5`, a parallel ray through the origin, and finite
bounds `[1/1000, 100]`. -/
theorem aarect_parallel_offplane_ray_misses_witness :
    xyrectF.hit ⟨0, 1, 0, 1, 5⟩
      ⟨⟨FP.fin 0, FP.fin 0, FP.fin 0⟩, ⟨FP.fin 1, FP.fin 1, FP.fin 0⟩, FP.fin 0⟩
      (FP.fin (1/1000)) (FP.fin 100) = none ∧
    xzrectF.hit ⟨0, 1, 0, 1, 5⟩
      ⟨⟨FP.fin 0, FP.fin 0, FP.fin 0⟩, ⟨FP.fin 1, FP.fin 0, FP.fin 1⟩, FP.fin 0⟩
      (FP.fin (1/1000)) (FP.fin 100) = none ∧
    yzrectF.hit ⟨0, 1, 0, 1, 5⟩
      ⟨⟨FP.fin 0, FP.fin 0, FP.fin 0⟩, ⟨FP.fin 0, FP.fin 1, FP.fin 1⟩, FP.fin 0⟩
      (FP.fin (1/1000)) (FP.fin 100) = none :=
  ⟨aarect_parallel_offplane_ray_misses.1 ⟨0, 1, 0, 1, 5⟩ _ 0 (1/1000) 100
      rfl rfl (by decide),
   aarect_parallel_offplane_ray_misses.2.1 ⟨0, 1, 0, 1, 5⟩ _ 0 (1/1000) 100
      rfl rfl (by decide),
   aarect_parallel_offplane_ray_misses.2.2 ⟨0, 1, 0, 1, 5⟩ _ 0 (1/1000) 100
      rfl rfl (by decide)⟩

/-- Negating the right argument negates the dot product. -/
theorem dot_neg_right (u v : vec3) : dot u (-v) = -dot u v := by
  simp only [dot, vec3_neg]
  ring

/-- C10 (counterexample): a 90-degree `rotate_y` wrapper (`sin_theta = 1`,
`cos_theta = 0`) around an xy-rectangle, hit by a world ray that strikes
the inner rectangle on its front face, returns a record with
`front_face = false` whose normal has positive dot with the ray direction —
the wrapper re-runs the orientation test with the object-space ray
direction against the world-space rotated normal — and a one-sided
emissive material on that record emits black, not its radiance. -/
theorem rotate_y_hit_front_face_false :
    rotate_y.hit
        (xyrect.mk 0 2 0 1 0 (material.diffuse_light (solid_color ⟨7, 7, 7⟩))).hit
        1 0 ⟨⟨1, 1/2, -(1/2)⟩, ⟨-1, 0, -1⟩, 0⟩ (1/1000) 100 =
      some { p := ⟨0, 1/2, -(3/2)⟩
             normal := ⟨-1, 0, 0⟩
             mat := material.diffuse_light (solid_color ⟨7, 7, 7⟩)
             t := 1
             u := 3/4
             v := 1/2
             front_face := false } ∧
    dot ⟨-1, 0, -1⟩ ⟨-1, 0, 0⟩ > 0 ∧
    material.emitted (material.diffuse_light (solid_color ⟨7, 7, 7⟩))
        ⟨⟨1, 1/2, -(1/2)⟩, ⟨-1, 0, -1⟩, 0⟩
        ⟨⟨0, 1/2, -(3/2)⟩, ⟨-1, 0, 0⟩,
         material.diffuse_light (solid_color ⟨7, 7, 7⟩), 1, 3/4, 1/2, false⟩
        (3/4) (1/2) ⟨0, 1/2, -(3/2)⟩ = ⟨0, 0, 0⟩ := by
  refine ⟨?_, by norm_num [dot], rfl⟩
  norm_num [rotate_y.hit, xyrect.hit, set_face_normal, dot, ray.at,
    vec3_smul, vec3_add, vec3_neg]

/-- C10 (amended): re-running `set_face_normal` on an inner record's
already-oriented normal behaves differently in the two wrappers.  First,
any normal produced by `set_face_normal` from an outward normal not
perpendicular to the ray strictly opposes the ray.  Second, `translate`
re-tests the unchanged direction against the inner normal, so whenever the
inner record's normal strictly opposes the ray — which holds for inner
front- and back-face hits alike — the wrapper's record has
`front_face = true` and an opposing normal, and a one-sided emissive
material on the wrapped record therefore emits from both sides.  Third,
`rotate_y` re-tests the object-space direction against the world-space
rotated normal, a mixed-frame test whose outcome decides the flag and the
possible flip of the normal; it is not always true. -/
theorem wrapper_orientation_retest :
    (∀ (r' : ray) (outward : vec3),
        dot r'.dir outward ≠ 0 →
        dot r'.dir (set_face_normal r' outward).2 < 0) ∧
    (∀ (inner : ray → ℝ → ℝ → Option hit_record) (position : vec3) (r : ray)
        (t_min t_max : ℝ) (rec : hit_record) (p' : vec3),
        p' = rec.p + position →
        inner ⟨r.orig - position, r.dir, r.time⟩ t_min t_max = some rec →
        dot r.dir rec.normal < 0 →
        translate.hit inner position r t_min t_max =
          some { rec with p := p', normal := rec.normal, front_face := true } ∧
        dot r.dir rec.normal < 0 ∧
        ∀ (map : texture) (r'' : ray) (u v : ℝ) (q : vec3),
          material.emitted (material.diffuse_light map) r''
            { rec with p := p', normal := rec.normal, front_face := true }
            u v q = map u v q) ∧
    (∀ (inner : ray → ℝ → ℝ → Option hit_record) (sin_theta cos_theta : ℝ)
        (r : ray) (t_min t_max : ℝ) (rec : hit_record) (o' d' n' p' : vec3),
        o' = ⟨cos_theta * r.orig.x - sin_theta * r.orig.z, r.orig.y,
              sin_theta * r.orig.x + cos_theta * r.orig.z⟩ →
        d' = ⟨cos_theta * r.dir.x - sin_theta * r.dir.z, r.dir.y,
              sin_theta * r.dir.x + cos_theta * r.dir.z⟩ →
        n' = ⟨cos_theta * rec.normal.x + sin_theta * rec.normal.z,
              rec.normal.y,
              -sin_theta * rec.normal.x + cos_theta * rec.normal.z⟩ →
        p' = ⟨cos_theta * rec.p.x + sin_theta * rec.p.z, rec.p.y,
              -sin_theta * rec.p.x + cos_theta * rec.p.z⟩ →
        inner ⟨o', d', r.time⟩ t_min t_max = some rec →
        rotate_y.hit inner sin_theta cos_theta r t_min t_max =
          if dot d' n' < 0
          then some { rec with p := p', normal := n', front_face := true }
          else some { rec with p := p', normal := -n', front_face := false }) := by
  refine ⟨?_, ?_, ?_⟩
  · intro r' outward h
    simp only [set_face_normal]
    rcases lt_or_gt_of_ne h with hlt | hgt
    · rw [if_pos hlt]
      exact hlt
    · rw [if_neg (not_lt.mpr hgt.le)]
      simp only [dot_neg_right]
      exact neg_neg_iff_pos.mpr hgt
  · intro inner position r t_min t_max rec p' hp hinner hdot
    subst hp
    refine ⟨?_, hdot, fun map r'' u v q => rfl⟩
    simp only [translate.hit, hinner]
    simp only [set_face_normal]
    rw [if_pos hdot]
  · intro inner sin_theta cos_theta r t_min t_max rec o' d' n' p' ho hd hn hp hinner
    subst ho; subst hd; subst hn; subst hp
    simp only [rotate_y.hit, hinner]
    simp only [set_face_normal]
    by_cases hlt : dot (⟨cos_theta * r.dir.x - sin_theta * r.dir.z, r.dir.y,
        sin_theta * r.dir.x + cos_theta * r.dir.z⟩ : vec3)
        (⟨cos_theta * rec.normal.x + sin_theta * rec.normal.z, rec.normal.y,
          -sin_theta * rec.normal.x + cos_theta * rec.normal.z⟩ : vec3) < 0
    · rw [if_pos hlt, if_pos hlt]
    · rw [if_neg hlt, if_neg hlt]

/-- C10 (witness): the orientation-retest theorem applied at concrete
inputs — the oriented-normal lemma at a head-on ray, the `translate` part
at an xy-rectangle shifted by `(0,0,5)`, and the `rotate_y` part at the
90-degree rotation. -/
theorem wrapper_orientation_retest_witness :
    dot (⟨0, 0, -1⟩ : vec3)
      (set_face_normal ⟨⟨0, 0, 0⟩, ⟨0, 0, -1⟩, 0⟩ ⟨0, 0, 1⟩).2 < 0 ∧
    (translate.hit
        (xyrect.mk 0 1 0 1 0 (material.diffuse_light (solid_color ⟨7, 7, 7⟩))).hit
        ⟨0, 0, 5⟩ ⟨⟨1/2, 1/2, 7⟩, ⟨0, 0, -1⟩, 0⟩ (1/1000) 100 =
      some { p := ⟨1/2, 1/2, 5⟩
             normal := ⟨0, 0, 1⟩
             mat := material.diffuse_light (solid_color ⟨7, 7, 7⟩)
             t := 2
             u := 1/2
             v := 1/2
             front_face := true } ∧
     dot (⟨0, 0, -1⟩ : vec3) ⟨0, 0, 1⟩ < 0 ∧
     material.emitted (material.diffuse_light (solid_color ⟨7, 7, 7⟩))
        ⟨⟨1/2, 1/2, 7⟩, ⟨0, 0, -1⟩, 0⟩
        { p := ⟨1/2, 1/2, 5⟩
          normal := ⟨0, 0, 1⟩
          mat := material.diffuse_light (solid_color ⟨7, 7, 7⟩)
          t := 2
          u := 1/2
          v := 1/2
          front_face := true } (1/2) (1/2) ⟨1/2, 1/2, 5⟩ = ⟨7, 7, 7⟩) ∧
    rotate_y.hit
        (xyrect.mk 0 2 0 1 0 (material.diffuse_light (solid_color ⟨7, 7, 7⟩))).hit
        1 0 ⟨⟨1, 1/2, -(1/2)⟩, ⟨-1, 0, -1⟩, 0⟩ (1/1000) 100 =
      (if dot (⟨1, 0, -1⟩ : vec3) (⟨1, 0, 0⟩ : vec3) < 0
       then some { p := ⟨0, 1/2, -(3/2)⟩
                   normal := ⟨1, 0, 0⟩
                   mat := material.diffuse_light (solid_color ⟨7, 7, 7⟩)
                   t := 1
                   u := 3/4
                   v := 1/2
                   front_face := true }
       else some { p := ⟨0, 1/2, -(3/2)⟩
                   normal := -(⟨1, 0, 0⟩ : vec3)
                   mat := material.diffuse_light (solid_color ⟨7, 7, 7⟩)
                   t := 1
                   u := 3/4
                   v := 1/2
                   front_face := false }) := by
  refine ⟨wrapper_orientation_retest.1 ⟨⟨0, 0, 0⟩, ⟨0, 0, -1⟩, 0⟩ ⟨0, 0, 1⟩
      (by norm_num [dot]), ?_, ?_⟩
  · have h := wrapper_orientation_retest.2.1
      (xyrect.mk 0 1 0 1 0 (material.diffuse_light (solid_color ⟨7, 7, 7⟩))).hit
      ⟨0, 0, 5⟩ ⟨⟨1/2, 1/2, 7⟩, ⟨0, 0, -1⟩, 0⟩ (1/1000) 100
      ⟨⟨1/2, 1/2, 0⟩, ⟨0, 0, 1⟩,
       material.diffuse_light (solid_color ⟨7, 7, 7⟩), 2, 1/2, 1/2, true⟩
      ⟨1/2, 1/2, 5⟩
      (by norm_num [vec3_add])
      (by norm_num [xyrect.hit, set_face_normal, dot, ray.at, vec3_sub,
        vec3_add, vec3_smul])
      (by norm_num [dot])
    exact ⟨h.1, h.2.1, h.2.2 (solid_color ⟨7, 7, 7⟩)
      ⟨⟨1/2, 1/2, 7⟩, ⟨0, 0, -1⟩, 0⟩ (1/2) (1/2) ⟨1/2, 1/2, 5⟩⟩
  · exact wrapper_orientation_retest.2.2
      (xyrect.mk 0 2 0 1 0 (material.diffuse_light (solid_color ⟨7, 7, 7⟩))).hit
      1 0 ⟨⟨1, 1/2, -(1/2)⟩, ⟨-1, 0, -1⟩, 0⟩ (1/1000) 100
      ⟨⟨3/2, 1/2, 0⟩, ⟨0, 0, 1⟩,
       material.diffuse_light (solid_color ⟨7, 7, 7⟩), 1, 3/4, 1/2, true⟩
      ⟨1/2, 1/2, 1⟩ ⟨1, 0, -1⟩ ⟨1, 0, 0⟩ ⟨0, 1/2, -(3/2)⟩
      (by norm_num) (by norm_num) (by norm_num) (by norm_num)
      (by norm_num [xyrect.hit, set_face_normal, dot, ray.at, vec3_add,
        vec3_smul])
